import Mathlib

/-!
Shallow embedding of the cannon mini-game (`CannonGame` class) and proofs of
the behavioural properties stated in its specification.

JavaScript numbers are modelled as real numbers; the global `Math.random()`
stream is modelled as an arbitrary tape `u : ℕ → ℝ` whose values are assumed
to lie in `[0, 1)` where a claim needs it.  Rendering, audio and DOM access
are outside the modelled state except for the stats display, which is
modelled by a counter `statsCalls` of how many times `updateStats()` ran.
-/

open scoped Classical

noncomputable section

/-- An enemy ("falling object") as created by `spawnEnemy`.  The `hue` field
models the colour string. -/
structure Enemy where
  x : ℝ
  y : ℝ
  vy : ℝ
  radius : ℝ
  rotation : ℝ
  rotationSpeed : ℝ
  hue : ℝ
  deriving Inhabited

/-- A bullet as created by `fireBullet`. -/
structure Bullet where
  x : ℝ
  y : ℝ
  vx : ℝ
  vy : ℝ
  radius : ℝ
  life : ℝ
  trail : List (ℝ × ℝ)

/-- A homing rocket as created by `fireRocket`. -/
structure Rocket where
  x : ℝ
  y : ℝ
  vx : ℝ
  vy : ℝ
  angle : ℝ
  radius : ℝ
  life : ℝ
  trail : List (ℝ × ℝ)
  thrustParticles : ℕ

/-- An RGB colour. -/
structure Color where
  r : ℕ
  g : ℕ
  b : ℕ

/-- A particle as created by `createMuzzleFlash`, `createExplosion` or the
rocket thrust emitter. -/
structure Particle where
  x : ℝ
  y : ℝ
  vx : ℝ
  vy : ℝ
  radius : ℝ
  life : ℝ
  decay : ℝ
  color : Color

/-- The cannon record. -/
structure Cannon where
  x : ℝ
  y : ℝ
  width : ℝ
  height : ℝ
  angle : ℝ
  barrelLength : ℝ

/-- The whole mutable state of a `CannonGame` instance (minus rendering and
audio).  `statsCalls` counts invocations of the external stats display
update. -/
structure GameState where
  mouseX : ℝ
  mouseY : ℝ
  cannon : Cannon
  canvasW : ℝ
  canvasH : ℝ
  bullets : List Bullet
  rockets : List Rocket
  particles : List Particle
  enemies : List Enemy
  bulletsFired : ℕ
  rocketsFired : ℕ
  score : ℕ
  bulletCooldown : ℕ
  rocketCooldown : ℕ
  enemySpawnRate : ℝ
  enemySpawnTimer : ℕ
  statsCalls : ℕ

/-- `Math.atan2 y x`, i.e. the argument of the complex number `x + y*I`,
with values in `(-π, π]` (and `atan2 0 0 = 0`). -/
def atan2 (y x : ℝ) : ℝ := Complex.arg ⟨x, y⟩

/-- First normalization loop of the rocket-homing step:
`while (angleDiff > Math.PI) angleDiff -= Math.PI * 2`. -/
def normUp (d : ℝ) : ℝ :=
  if d > Real.pi then normUp (d - Real.pi * 2) else d
termination_by (⌈(d - Real.pi) / (Real.pi * 2)⌉).toNat
decreasing_by
  have hπ : (0:ℝ) < Real.pi := Real.pi_pos
  have h2π : (0:ℝ) < Real.pi * 2 := by linarith
  have harg : (d - Real.pi * 2 - Real.pi) / (Real.pi * 2)
      = (d - Real.pi) / (Real.pi * 2) - 1 := by
    field_simp
    ring
  have hpos : 0 < (d - Real.pi) / (Real.pi * 2) := by
    apply div_pos <;> linarith
  have hceil : 0 < ⌈(d - Real.pi) / (Real.pi * 2)⌉ := Int.ceil_pos.mpr hpos
  have hsub : ⌈(d - Real.pi * 2 - Real.pi) / (Real.pi * 2)⌉
      = ⌈(d - Real.pi) / (Real.pi * 2)⌉ - 1 := by
    rw [harg, Int.ceil_sub_one]
  simp only [hsub]
  omega

/-- Second normalization loop of the rocket-homing step:
`while (angleDiff < -Math.PI) angleDiff += Math.PI * 2`. -/
def normDown (d : ℝ) : ℝ :=
  if d < -Real.pi then normDown (d + Real.pi * 2) else d
termination_by (⌈(-Real.pi - d) / (Real.pi * 2)⌉).toNat
decreasing_by
  have hπ : (0:ℝ) < Real.pi := Real.pi_pos
  have h2π : (0:ℝ) < Real.pi * 2 := by linarith
  have harg : (-Real.pi - (d + Real.pi * 2)) / (Real.pi * 2)
      = (-Real.pi - d) / (Real.pi * 2) - 1 := by
    field_simp
    ring
  have hpos : 0 < (-Real.pi - d) / (Real.pi * 2) := by
    apply div_pos <;> linarith
  have hceil : 0 < ⌈(-Real.pi - d) / (Real.pi * 2)⌉ := Int.ceil_pos.mpr hpos
  have hsub : ⌈(-Real.pi - (d + Real.pi * 2)) / (Real.pi * 2)⌉
      = ⌈(-Real.pi - d) / (Real.pi * 2)⌉ - 1 := by
    rw [harg, Int.ceil_sub_one]
  simp only [hsub]
  omega

/-- The full angle-difference normalization performed in the homing step:
both `while` loops in sequence. -/
def normalizeAngle (d : ℝ) : ℝ := normDown (normUp d)

theorem normUp_le (d : ℝ) : normUp d ≤ Real.pi := by
  unfold normUp
  split
  · exact normUp_le (d - Real.pi * 2)
  · linarith [not_lt.mp (by assumption : ¬ d > Real.pi)]
termination_by (⌈(d - Real.pi) / (Real.pi * 2)⌉).toNat
decreasing_by
  have hπ : (0:ℝ) < Real.pi := Real.pi_pos
  have h2π : (0:ℝ) < Real.pi * 2 := by linarith
  have harg : (d - Real.pi * 2 - Real.pi) / (Real.pi * 2)
      = (d - Real.pi) / (Real.pi * 2) - 1 := by
    field_simp
    ring
  have hpos : 0 < (d - Real.pi) / (Real.pi * 2) := by
    have : Real.pi < d := by assumption
    apply div_pos <;> linarith
  have hceil : 0 < ⌈(d - Real.pi) / (Real.pi * 2)⌉ := Int.ceil_pos.mpr hpos
  have hsub : ⌈(d - Real.pi * 2 - Real.pi) / (Real.pi * 2)⌉
      = ⌈(d - Real.pi) / (Real.pi * 2)⌉ - 1 := by
    rw [harg, Int.ceil_sub_one]
  simp only [hsub]
  omega

theorem normDown_ge (d : ℝ) : -Real.pi ≤ normDown d := by
  unfold normDown
  split
  · exact normDown_ge (d + Real.pi * 2)
  · linarith [not_lt.mp (by assumption : ¬ d < -Real.pi)]
termination_by (⌈(-Real.pi - d) / (Real.pi * 2)⌉).toNat
decreasing_by
  have hπ : (0:ℝ) < Real.pi := Real.pi_pos
  have h2π : (0:ℝ) < Real.pi * 2 := by linarith
  have harg : (-Real.pi - (d + Real.pi * 2)) / (Real.pi * 2)
      = (-Real.pi - d) / (Real.pi * 2) - 1 := by
    field_simp
    ring
  have hpos : 0 < (-Real.pi - d) / (Real.pi * 2) := by
    have : d < -Real.pi := by assumption
    apply div_pos <;> linarith
  have hceil : 0 < ⌈(-Real.pi - d) / (Real.pi * 2)⌉ := Int.ceil_pos.mpr hpos
  have hsub : ⌈(-Real.pi - (d + Real.pi * 2)) / (Real.pi * 2)⌉
      = ⌈(-Real.pi - d) / (Real.pi * 2)⌉ - 1 := by
    rw [harg, Int.ceil_sub_one]
  simp only [hsub]
  omega

theorem normDown_le (d : ℝ) (hd : d ≤ Real.pi) : normDown d ≤ Real.pi := by
  unfold normDown
  split
  · have h1 : d < -Real.pi := by assumption
    have hπ : (0:ℝ) < Real.pi := Real.pi_pos
    exact normDown_le (d + Real.pi * 2) (by linarith)
  · exact hd
termination_by (⌈(-Real.pi - d) / (Real.pi * 2)⌉).toNat
decreasing_by
  have hπ : (0:ℝ) < Real.pi := Real.pi_pos
  have h2π : (0:ℝ) < Real.pi * 2 := by linarith
  have harg : (-Real.pi - (d + Real.pi * 2)) / (Real.pi * 2)
      = (-Real.pi - d) / (Real.pi * 2) - 1 := by
    field_simp
    ring
  have hpos : 0 < (-Real.pi - d) / (Real.pi * 2) := by
    have : d < -Real.pi := by assumption
    apply div_pos <;> linarith
  have hceil : 0 < ⌈(-Real.pi - d) / (Real.pi * 2)⌉ := Int.ceil_pos.mpr hpos
  have hsub : ⌈(-Real.pi - (d + Real.pi * 2)) / (Real.pi * 2)⌉
      = ⌈(-Real.pi - d) / (Real.pi * 2)⌉ - 1 := by
    rw [harg, Int.ceil_sub_one]
  simp only [hsub]
  omega

theorem normUp_neg_pi : normUp (-Real.pi) = -Real.pi := by
  unfold normUp
  rw [if_neg]
  have := Real.pi_pos
  linarith

theorem normDown_neg_pi : normDown (-Real.pi) = -Real.pi := by
  unfold normDown
  rw [if_neg]
  exact lt_irrefl _

theorem normalizeAngle_neg_pi : normalizeAngle (-Real.pi) = -Real.pi := by
  rw [normalizeAngle, normUp_neg_pi, normDown_neg_pi]

/-! ## Particle creation (`createMuzzleFlash`, `createExplosion`, thrust) -/

/-- Muzzle flash colour: magenta for rockets, cyan for bullets. -/
def muzzleColor (isRocket : Bool) : Color :=
  if isRocket then ⟨255, 0, 255⟩ else ⟨0, 255, 255⟩

/-- One particle of a muzzle flash burst; `u n, u (n+1), u (n+2), u (n+3)`
are the four `Math.random()` draws of one loop iteration. -/
def mkMuzzleParticle (u : ℕ → ℝ) (n : ℕ) (x y angle : ℝ) (c : Color) : Particle :=
  let spreadAngle := angle + (u n - 0.5) * Real.pi / 3
  let speed := u (n + 1) * 5 + 2
  { x := x
    y := y
    vx := Real.cos spreadAngle * speed
    vy := Real.sin spreadAngle * speed
    radius := u (n + 2) * 3 + 1
    life := 1
    decay := 0.02 + u (n + 3) * 0.02
    color := c }

/-- `createMuzzleFlash(x, y, angle, isRocket)`: 20 particles for a rocket,
10 for a bullet. -/
def createMuzzleFlash (u : ℕ → ℝ) (n : ℕ) (x y angle : ℝ) (isRocket : Bool) :
    List Particle :=
  let particleCount := if isRocket then 20 else 10
  (List.range particleCount).map fun i =>
    mkMuzzleParticle u (n + 4 * i) x y angle (muzzleColor isRocket)

/-- One particle of an explosion burst. -/
def mkExplosionParticle (u : ℕ → ℝ) (n : ℕ) (x y : ℝ) : Particle :=
  let angle := u n * (Real.pi * 2)
  let speed := u (n + 1) * 6 + 2
  { x := x
    y := y
    vx := Real.cos angle * speed
    vy := Real.sin angle * speed
    radius := u (n + 2) * 4 + 2
    life := 1
    decay := 0.03 + u (n + 3) * 0.03
    color := ⟨255, 200, 50⟩ }

/-- `createExplosion(x, y)`: 15 gold particles in random directions. -/
def createExplosion (u : ℕ → ℝ) (n : ℕ) (x y : ℝ) : List Particle :=
  (List.range 15).map fun i => mkExplosionParticle u (n + 4 * i) x y

/-- The thrust particle emitted behind a rocket on every second homing tick. -/
def mkThrustParticle (u : ℕ → ℝ) (n : ℕ) (r : Rocket) : Particle :=
  let exhaustAngle := r.angle + Real.pi + (u n - 0.5) * 0.3
  { x := r.x - Real.cos r.angle * 10
    y := r.y - Real.sin r.angle * 10
    vx := Real.cos exhaustAngle * 3
    vy := Real.sin exhaustAngle * 3
    radius := u (n + 1) * 2 + 1
    life := 1
    decay := 0.05
    color := ⟨255, 0, 255⟩ }

/-- `spawnEnemy()`: one falling object at a random horizontal position. -/
def spawnEnemy (u : ℕ → ℝ) (n : ℕ) (w : ℝ) : Enemy :=
  { x := u n * w
    y := -50
    vy := u (n + 2) * 2 + 1
    radius := u (n + 1) * 30 + 20
    rotation := 0
    rotationSpeed := (u (n + 3) - 0.5) * 0.1
    hue := u (n + 4) * 60 }

/-! ## Collision test and the per-projectile enemy scan -/

/-- The circle-overlap test performed inside both collision loops:
`Math.sqrt(dx*dx + dy*dy) < enemy.radius + projectile.radius`. -/
def hitTest (px py pr : ℝ) (e : Enemy) : Prop :=
  Real.sqrt ((px - e.x) * (px - e.x) + (py - e.y) * (py - e.y)) < e.radius + pr

/-- The enemy at index `i` of the store (arbitrary default out of range). -/
def enemyAt (es : List Enemy) (i : ℕ) : Enemy := es.getD i default

/-- The descending scan `for (let i = enemies.length - 1; i >= 0; i--)`:
`scanFrom … (i+1)` tests index `i` first and breaks on the first overlap. -/
def scanFrom (px py pr : ℝ) (es : List Enemy) : ℕ → Option ℕ
  | 0 => none
  | i + 1 =>
    if hitTest px py pr (enemyAt es i) then some i else scanFrom px py pr es i

/-- The whole collision loop of one projectile: the index of the enemy hit,
if any. -/
def collideScan (px py pr : ℝ) (es : List Enemy) : Option ℕ :=
  scanFrom px py pr es es.length

/-! ## Per-entity tick advancement -/

/-- Enemy advance: `enemy.y += enemy.vy; enemy.rotation += enemy.rotationSpeed`. -/
def updateEnemy (e : Enemy) : Enemy :=
  { e with y := e.y + e.vy, rotation := e.rotation + e.rotationSpeed }

/-- The enemy filter of `update`: advance each enemy and keep it while
`enemy.y < canvas.height + 100`. -/
def keepEnemies (h : ℝ) : List Enemy → List Enemy
  | [] => []
  | e :: es =>
    let e2 := updateEnemy e
    if e2.y < h + 100 then e2 :: keepEnemies h es else keepEnemies h es

/-- Bullet kinematics of one tick: trail push (bounded to 10), straight-line
move, and the fade `bullet.life -= 0.005`. -/
def stepBulletKinematics (b : Bullet) : Bullet :=
  let t := b.trail ++ [(b.x, b.y)]
  let t2 := if t.length > 10 then t.tail else t
  { b with
    trail := t2
    x := b.x + b.vx
    y := b.y + b.vy
    life := b.life - 0.005 }

/-- Rocket kinematics of one tick: trail push (bounded to 15), proportional
steering of the heading toward the pointer, velocity recomputed at the old
speed magnitude along the new heading, the move, the thrust-tick counter,
and the fade `rocket.life -= 0.003`. -/
def homingStep (mx my : ℝ) (r : Rocket) : Rocket :=
  let t := r.trail ++ [(r.x, r.y)]
  let t2 := if t.length > 15 then t.tail else t
  let targetAngle := atan2 (my - r.y) (mx - r.x)
  let angleDiff := normalizeAngle (targetAngle - r.angle)
  let a := r.angle + angleDiff * 0.05
  let speed := Real.sqrt (r.vx * r.vx + r.vy * r.vy)
  let vx := Real.cos a * speed
  let vy := Real.sin a * speed
  { r with
    trail := t2
    angle := a
    vx := vx
    vy := vy
    x := r.x + vx
    y := r.y + vy
    thrustParticles := r.thrustParticles + 1
    life := r.life - 0.003 }

/-- Particle advance: move, geometric drag `*= 0.98`, and `life -= decay`. -/
def stepParticle (p : Particle) : Particle :=
  { p with
    x := p.x + p.vx
    y := p.y + p.vy
    vx := p.vx * 0.98
    vy := p.vy * 0.98
    life := p.life - p.decay }

/-- The particle filter of `update`: advance and keep while `life > 0`. -/
def particlePass : List Particle → List Particle
  | [] => []
  | p :: ps =>
    let p2 := stepParticle p
    if 0 < p2.life then p2 :: particlePass ps else particlePass ps

/-! ## The bullet and rocket filter loops of `update` -/

/-- Result of one projectile filter loop: surviving projectiles, the enemy
store after the splices, the particles pushed during the loop, the number of
kills (each scored and reported to the stats display once), and the next
unused random-tape index. -/
structure PassOut (α : Type) where
  kept : List α
  enemies : List Enemy
  parts : List Particle
  kills : ℕ
  nextIdx : ℕ

/-- The `this.bullets = this.bullets.filter(...)` loop: per bullet advance,
then the collision scan against the current enemy store; on a hit the enemy
is spliced out, an explosion burst is pushed, the score rises by 10, the
stats display is updated once, and the bullet is dropped; otherwise the
bullet is retained while alive and within a 50px off-screen margin. -/
def bulletPass (u : ℕ → ℝ) (w h : ℝ) : List Bullet → List Enemy → ℕ → PassOut Bullet
  | [], es, n => ⟨[], es, [], 0, n⟩
  | b :: bs, es, n =>
    let b2 := stepBulletKinematics b
    match collideScan b2.x b2.y b2.radius es with
    | some i =>
      let e := enemyAt es i
      let expl := createExplosion u n e.x e.y
      let rest := bulletPass u w h bs (es.eraseIdx i) (n + 60)
      ⟨rest.kept, rest.enemies, expl ++ rest.parts, rest.kills + 1, rest.nextIdx⟩
    | none =>
      let rest := bulletPass u w h bs es n
      ⟨if 0 < b2.life ∧ -50 < b2.x ∧ b2.x < w + 50 ∧ -50 < b2.y ∧ b2.y < h + 50
          then b2 :: rest.kept else rest.kept,
        rest.enemies, rest.parts, rest.kills, rest.nextIdx⟩

/-- The `this.rockets = this.rockets.filter(...)` loop: homing advance, a
thrust particle on every second tick, then the same collision scan as for
bullets but scoring 25, and retention within a 100px off-screen margin. -/
def rocketPass (u : ℕ → ℝ) (mx my w h : ℝ) :
    List Rocket → List Enemy → ℕ → PassOut Rocket
  | [], es, n => ⟨[], es, [], 0, n⟩
  | r :: rs, es, n =>
    let r2 := homingStep mx my r
    let thrust := if r2.thrustParticles % 2 = 0 then [mkThrustParticle u n r2] else []
    let n2 := if r2.thrustParticles % 2 = 0 then n + 2 else n
    match collideScan r2.x r2.y r2.radius es with
    | some i =>
      let e := enemyAt es i
      let expl := createExplosion u n2 e.x e.y
      let rest := rocketPass u mx my w h rs (es.eraseIdx i) (n2 + 60)
      ⟨rest.kept, rest.enemies, thrust ++ expl ++ rest.parts, rest.kills + 1,
        rest.nextIdx⟩
    | none =>
      let rest := rocketPass u mx my w h rs es n2
      ⟨if 0 < r2.life ∧ -100 < r2.x ∧ r2.x < w + 100 ∧ -100 < r2.y ∧ r2.y < h + 100
          then r2 :: rest.kept else rest.kept,
        rest.enemies, thrust ++ rest.parts, rest.kills, rest.nextIdx⟩

/-! ## The per-tick `update()` pipeline -/

/-- The spawn-scheduler guard `++this.enemySpawnTimer > this.enemySpawnRate`. -/
def spawnCond (s : GameState) : Prop :=
  ((s.enemySpawnTimer + 1 : ℕ) : ℝ) > s.enemySpawnRate

/-- Step 1 of `update`: increment the spawn timer; past the interval, spawn
one enemy, reset the timer, and shrink the interval by 0.5 down to the
floor 20.  Also returns the number of random draws consumed. -/
def spawnStep (u : ℕ → ℝ) (s : GameState) : GameState × ℕ :=
  if spawnCond s then
    ({ s with
        enemies := s.enemies ++ [spawnEnemy u 0 s.canvasW]
        enemySpawnTimer := 0
        enemySpawnRate :=
          if s.enemySpawnRate > 20 then s.enemySpawnRate - 0.5
          else s.enemySpawnRate }, 5)
  else ({ s with enemySpawnTimer := s.enemySpawnTimer + 1 }, 0)

/-- Step 2 of `update`: each weapon cooldown decrements toward zero. -/
def cooldownStep (s : GameState) : GameState :=
  { s with
    bulletCooldown := if 0 < s.bulletCooldown then s.bulletCooldown - 1
      else s.bulletCooldown
    rocketCooldown := if 0 < s.rocketCooldown then s.rocketCooldown - 1
      else s.rocketCooldown }

/-- Step 3 of `update`: re-aim the cannon at the pointer. -/
def aimStep (s : GameState) : GameState :=
  { s with cannon :=
    { s.cannon with angle := atan2 (s.mouseY - s.cannon.y) (s.mouseX - s.cannon.x) } }

/-- Step 4 of `update`: advance and cull the enemy store. -/
def enemyStep (s : GameState) : GameState :=
  { s with enemies := keepEnemies s.canvasH s.enemies }

/-- The state after steps 1–4 of `update`, before the projectile loops. -/
def midState (u : ℕ → ℝ) (s : GameState) : GameState :=
  enemyStep (aimStep (cooldownStep (spawnStep u s).1))

/-- The bullet loop of `update`, run on the mid-tick state. -/
def bulletOut (u : ℕ → ℝ) (s : GameState) : PassOut Bullet :=
  bulletPass u (midState u s).canvasW (midState u s).canvasH
    (midState u s).bullets (midState u s).enemies (spawnStep u s).2

/-- The rocket loop of `update`, run after the bullet loop. -/
def rocketOut (u : ℕ → ℝ) (s : GameState) : PassOut Rocket :=
  rocketPass u (midState u s).mouseX (midState u s).mouseY
    (midState u s).canvasW (midState u s).canvasH
    (midState u s).rockets (bulletOut u s).enemies (bulletOut u s).nextIdx

/-- One whole `update()` tick: spawn scheduler, cooldowns, cannon aim, enemy
advance, the bullet and rocket loops (scoring 10 and 25 per kill, one stats
update per kill), then the particle filter over old and newly pushed
particles. -/
def update (u : ℕ → ℝ) (s : GameState) : GameState :=
  let s3 := midState u s
  let bo := bulletOut u s
  let ro := rocketOut u s
  { s3 with
    bullets := bo.kept
    rockets := ro.kept
    enemies := ro.enemies
    particles := particlePass (s3.particles ++ bo.parts ++ ro.parts)
    score := s3.score + 10 * bo.kills + 25 * ro.kills
    statsCalls := s3.statsCalls + bo.kills + ro.kills }

/-! ## Fire commands and resize -/

/-- `fireBullet()`: a no-op while on cooldown; otherwise creates one bullet
at the barrel tip aimed at the pointer, counts the shot, starts the 8-frame
cooldown, pushes a muzzle flash and updates the stats display once. -/
def fireBullet (u : ℕ → ℝ) (s : GameState) : GameState :=
  if 0 < s.bulletCooldown then s
  else
    let a := atan2 (s.mouseY - s.cannon.y) (s.mouseX - s.cannon.x)
    let bx := s.cannon.x + Real.cos a * s.cannon.barrelLength
    let by2 := s.cannon.y + Real.sin a * s.cannon.barrelLength
    let b : Bullet := {
      x := bx
      y := by2
      vx := Real.cos a * 15
      vy := Real.sin a * 15
      radius := 4
      life := 1
      trail := [] }
    { s with
      bullets := s.bullets ++ [b]
      bulletsFired := s.bulletsFired + 1
      bulletCooldown := 8
      particles := s.particles ++ createMuzzleFlash u 0 bx by2 a false
      statsCalls := s.statsCalls + 1 }

/-- `fireRocket()`: a no-op while on cooldown; otherwise creates one rocket
at the barrel tip aimed at the pointer, counts the shot, starts the 30-frame
cooldown, pushes a muzzle flash and updates the stats display once. -/
def fireRocket (u : ℕ → ℝ) (s : GameState) : GameState :=
  if 0 < s.rocketCooldown then s
  else
    let a := atan2 (s.mouseY - s.cannon.y) (s.mouseX - s.cannon.x)
    let rx := s.cannon.x + Real.cos a * s.cannon.barrelLength
    let ry := s.cannon.y + Real.sin a * s.cannon.barrelLength
    let r : Rocket := {
      x := rx
      y := ry
      vx := Real.cos a * 8
      vy := Real.sin a * 8
      angle := a
      radius := 6
      life := 1
      trail := []
      thrustParticles := 0 }
    { s with
      rockets := s.rockets ++ [r]
      rocketsFired := s.rocketsFired + 1
      rocketCooldown := 30
      particles := s.particles ++ createMuzzleFlash u 0 rx ry a true
      statsCalls := s.statsCalls + 1 }

/-- `resizeCanvas()`: record the new viewport size and move the cannon to
the new bottom centre. -/
def resizeCanvas (w h : ℝ) (s : GameState) : GameState :=
  { s with
    canvasW := w
    canvasH := h
    cannon := { s.cannon with x := w / 2, y := h - 40 } }

/-- Iterated ticks, one fresh random tape per tick. -/
def iterUpdate (us : ℕ → ℕ → ℝ) (s : GameState) : ℕ → GameState
  | 0 => s
  | j + 1 => update (us j) (iterUpdate us s j)

/-- The spawn-interval states reachable from the initial interval 60 via
half-steps down to the floor 20. -/
def SpawnInv (s : GameState) : Prop :=
  ∃ k : ℕ, k ≤ 80 ∧ s.enemySpawnRate = 60 - (k : ℝ) * 0.5

/-! ## General lemmas -/

/-- A point of the Euclidean plane. -/
def planePt (x y : ℝ) : EuclideanSpace ℝ (Fin 2) :=
  (WithLp.equiv 2 (Fin 2 → ℝ)).symm ![x, y]

theorem euclid_dist (px py qx qy : ℝ) :
    dist (planePt px py) (planePt qx qy)
      = Real.sqrt ((px - qx) * (px - qx) + (py - qy) * (py - qy)) := by
  rw [EuclideanSpace.dist_eq]
  congr 1
  rw [Fin.sum_univ_two]
  simp only [planePt, WithLp.equiv_symm_pi_apply, Matrix.cons_val_zero,
    Matrix.cons_val_one, Matrix.head_cons, Real.dist_eq, sq_abs]
  ring

theorem sqrt_cos_sin_mul (a sp : ℝ) (hsp : 0 ≤ sp) :
    Real.sqrt ((Real.cos a * sp) * (Real.cos a * sp)
      + (Real.sin a * sp) * (Real.sin a * sp)) = sp := by
  have h1 : (Real.cos a * sp) * (Real.cos a * sp)
      + (Real.sin a * sp) * (Real.sin a * sp) = sp ^ 2 := by
    have h2 := Real.sin_sq_add_cos_sq a
    nlinarith [h2]
  rw [h1, Real.sqrt_sq hsp]

/-! ## Claim C1: exact boundary behaviour of the collision test -/

/-- Claim C1: the per-tick collision test between a projectile and an enemy
reports a hit iff the Euclidean distance between their centres is strictly
less than the sum of their radii; at exact equality no collision is
reported. -/
theorem collision_boundary_exact (px py pr : ℝ) (e : Enemy) :
    (hitTest px py pr e ↔
      dist (planePt px py) (planePt e.x e.y) < e.radius + pr)
    ∧ (dist (planePt px py) (planePt e.x e.y) = e.radius + pr →
      ¬ hitTest px py pr e) := by
  have hd := euclid_dist px py e.x e.y
  constructor
  · rw [hitTest, hd]
  · intro hEq hHit
    rw [hitTest, ← hd, hEq] at hHit
    exact lt_irrefl _ hHit

/-- An enemy whose circle touches the origin-centred radius-2 projectile
exactly at distance 5 = 3 + 2. -/
def cexEnemy : Enemy := ⟨3, 4, 0, 3, 0, 0, 0⟩

/-- Witness for C1: at exact boundary distance the test reports no hit. -/
theorem collision_boundary_exact_witness : ¬ hitTest 0 0 2 cexEnemy :=
  (collision_boundary_exact 0 0 2 cexEnemy).2 (by
    rw [euclid_dist]
    show Real.sqrt ((0 - (3:ℝ)) * (0 - 3) + (0 - 4) * (0 - 4)) = 3 + 2
    rw [show ((0:ℝ) - 3) * (0 - 3) + (0 - 4) * (0 - 4) = 5 ^ 2 by norm_num,
      Real.sqrt_sq (by norm_num)]
    norm_num)

/-! ## Claim C2: fire commands on cooldown are dropped entirely -/

/-- Claim C2: a fire command issued while the corresponding weapon's
cooldown counter is positive changes nothing at all: the state after the
command is the state before it (no projectile, no shot count, no particles,
no stats update, no buffering). -/
theorem fire_on_cooldown_is_noop (u v : ℕ → ℝ) (s : GameState)
    (hb : 0 < s.bulletCooldown) (hr : 0 < s.rocketCooldown) :
    fireBullet u s = s ∧ fireRocket v s = s := by
  constructor
  · rw [fireBullet, if_pos hb]
  · rw [fireRocket, if_pos hr]

/-- A quiescent state with both weapons on a 1-frame cooldown. -/
def coolState : GameState :=
  ⟨0, 0, ⟨0, 0, 60, 80, 0, 50⟩, 100, 100, [], [], [], [], 0, 0, 0, 1, 1, 60, 0, 0⟩

/-- Witness for C2: firing both weapons in `coolState` changes nothing. -/
theorem fire_on_cooldown_is_noop_witness :
    fireBullet (fun _ => 0) coolState = coolState
    ∧ fireRocket (fun _ => 0) coolState = coolState :=
  fire_on_cooldown_is_noop (fun _ => 0) (fun _ => 0) coolState
    (by norm_num [coolState]) (by norm_num [coolState])

/-! ## Claim C3: homing conserves speed and turns by 5% of the delta -/

/-- Claim C3: the rocket homing update conserves the magnitude of the
velocity vector, and changes the heading by exactly 0.05 times the
normalized angular difference between the direction toward the pointer and
the current heading. -/
theorem homing_conserves_speed (mx my : ℝ) (r : Rocket) :
    Real.sqrt ((homingStep mx my r).vx * (homingStep mx my r).vx
        + (homingStep mx my r).vy * (homingStep mx my r).vy)
      = Real.sqrt (r.vx * r.vx + r.vy * r.vy)
    ∧ (homingStep mx my r).angle - r.angle
      = normalizeAngle (atan2 (my - r.y) (mx - r.x) - r.angle) * 0.05 := by
  constructor
  · exact sqrt_cos_sin_mul
      (r.angle + normalizeAngle (atan2 (my - r.y) (mx - r.x) - r.angle) * 0.05)
      (Real.sqrt (r.vx * r.vx + r.vy * r.vy)) (Real.sqrt_nonneg _)
  · show r.angle + normalizeAngle (atan2 (my - r.y) (mx - r.x) - r.angle) * 0.05
      - r.angle = _
    ring

/-! ## Claim C4 (corrected): range of the angle normalization -/

/-- Counterexample to claim C4 as stated: at the finite input `-π` both
normalization loops are skipped, so the result is exactly `-π`, which the
claim says is never produced (it lies outside `(-π, π]`). -/
theorem normalize_attains_neg_pi :
    normalizeAngle (-Real.pi) = -Real.pi
    ∧ ¬ (-Real.pi < normalizeAngle (-Real.pi)
        ∧ normalizeAngle (-Real.pi) ≤ Real.pi) := by
  refine ⟨normalizeAngle_neg_pi, fun h => ?_⟩
  rw [normalizeAngle_neg_pi] at h
  exact lt_irrefl _ h.1

/-- Claim C4 (amended): for every finite input angle difference the
normalization loops terminate and produce a value in the closed interval
`[-π, π]`; the endpoint `-π` can be attained. -/
theorem normalize_angle_range (d : ℝ) :
    -Real.pi ≤ normalizeAngle d ∧ normalizeAngle d ≤ Real.pi :=
  ⟨normDown_ge _, normDown_le _ (normUp_le d)⟩

/-! ## Structure of the collision scan and the projectile loops -/

theorem scanFrom_some (px py pr : ℝ) (es : List Enemy) :
    ∀ k i, scanFrom px py pr es k = some i →
      i < k ∧ hitTest px py pr (enemyAt es i)
        ∧ ∀ j, i < j → j < k → ¬ hitTest px py pr (enemyAt es j) := by
  intro k
  induction k with
  | zero =>
    intro i h
    exact absurd h (by simp [scanFrom])
  | succ m ih =>
    intro i h
    simp only [scanFrom] at h
    split at h
    next hm =>
      injection h with h
      subst h
      refine ⟨Nat.lt_succ_self _, hm, fun j hj1 hj2 => ?_⟩
      exfalso
      omega
    next hm =>
      obtain ⟨h1, h2, h3⟩ := ih i h
      refine ⟨Nat.lt_succ_of_lt h1, h2, fun j hj1 hj2 => ?_⟩
      rcases Nat.lt_succ_iff_lt_or_eq.mp hj2 with hj | hj
      · exact h3 j hj1 hj
      · subst hj
        exact hm

theorem collideScan_some (px py pr : ℝ) (es : List Enemy) (i : ℕ)
    (h : collideScan px py pr es = some i) :
    i < es.length ∧ hitTest px py pr (enemyAt es i)
      ∧ ∀ j, i < j → j < es.length → ¬ hitTest px py pr (enemyAt es j) :=
  scanFrom_some px py pr es es.length i h

theorem bulletPass_enemy_count (u : ℕ → ℝ) (w h : ℝ) :
    ∀ (bs : List Bullet) (es : List Enemy) (n : ℕ),
      (bulletPass u w h bs es n).enemies.length + (bulletPass u w h bs es n).kills
        = es.length
      ∧ (bulletPass u w h bs es n).kills ≤ bs.length
      ∧ (bulletPass u w h bs es n).kept.length + (bulletPass u w h bs es n).kills
        ≤ bs.length := by
  intro bs
  induction bs with
  | nil =>
    intro es n
    simp [bulletPass]
  | cons b bs ih =>
    intro es n
    simp only [bulletPass]
    split
    next i heq =>
      have hi : i < es.length := (collideScan_some _ _ _ es i heq).1
      obtain ⟨ha, hb, hc⟩ := ih (es.eraseIdx i) (n + 60)
      have hlen : (es.eraseIdx i).length = es.length - 1 :=
        List.length_eraseIdx_of_lt hi
      refine ⟨?_, ?_, ?_⟩ <;> simp only [List.length_cons] <;> omega
    next heq =>
      obtain ⟨ha, hb, hc⟩ := ih es n
      refine ⟨by simpa using ha, ?_, ?_⟩ <;> simp only [List.length_cons]
      · omega
      · split
        · simp only [List.length_cons]
          omega
        · omega

theorem rocketPass_enemy_count (u : ℕ → ℝ) (mx my w h : ℝ) :
    ∀ (rs : List Rocket) (es : List Enemy) (n : ℕ),
      (rocketPass u mx my w h rs es n).enemies.length
          + (rocketPass u mx my w h rs es n).kills = es.length
      ∧ (rocketPass u mx my w h rs es n).kills ≤ rs.length
      ∧ (rocketPass u mx my w h rs es n).kept.length
          + (rocketPass u mx my w h rs es n).kills ≤ rs.length := by
  intro rs
  induction rs with
  | nil =>
    intro es n
    simp [rocketPass]
  | cons r rs ih =>
    intro es n
    simp only [rocketPass]
    split
    next i heq =>
      have hi : i < es.length := (collideScan_some _ _ _ es i heq).1
      obtain ⟨ha, hb, hc⟩ :=
        ih (es.eraseIdx i)
          ((if (homingStep mx my r).thrustParticles % 2 = 0 then n + 2 else n) + 60)
      have hlen : (es.eraseIdx i).length = es.length - 1 :=
        List.length_eraseIdx_of_lt hi
      refine ⟨?_, ?_, ?_⟩ <;> simp only [List.length_cons] <;> omega
    next heq =>
      obtain ⟨ha, hb, hc⟩ :=
        ih es (if (homingStep mx my r).thrustParticles % 2 = 0 then n + 2 else n)
      refine ⟨by simpa using ha, ?_, ?_⟩ <;> simp only [List.length_cons]
      · omega
      · split
        · simp only [List.length_cons]
          omega
        · omega

theorem bulletPass_kept_life (u : ℕ → ℝ) (w h : ℝ) :
    ∀ (bs : List Bullet) (es : List Enemy) (n : ℕ),
      ∀ b2 ∈ (bulletPass u w h bs es n).kept,
        0 < b2.life ∧ ∃ b ∈ bs, b2 = stepBulletKinematics b := by
  intro bs
  induction bs with
  | nil =>
    intro es n b2 hmem
    exact absurd hmem (by simp [bulletPass])
  | cons b bs ih =>
    intro es n b2 hmem
    simp only [bulletPass] at hmem
    split at hmem
    next i heq =>
      obtain ⟨hl, b0, hb0, hb2⟩ := ih (es.eraseIdx i) (n + 60) b2 hmem
      exact ⟨hl, b0, List.mem_cons_of_mem _ hb0, hb2⟩
    next heq =>
      by_cases hkeep : 0 < (stepBulletKinematics b).life
          ∧ -50 < (stepBulletKinematics b).x
          ∧ (stepBulletKinematics b).x < w + 50
          ∧ -50 < (stepBulletKinematics b).y
          ∧ (stepBulletKinematics b).y < h + 50
      · rw [if_pos hkeep] at hmem
        rcases List.mem_cons.mp hmem with hb2 | hmem2
        · subst hb2
          exact ⟨hkeep.1, b, List.mem_cons_self b bs, rfl⟩
        · obtain ⟨hl, b0, hb0, hb2⟩ := ih es n b2 hmem2
          exact ⟨hl, b0, List.mem_cons_of_mem _ hb0, hb2⟩
      · rw [if_neg hkeep] at hmem
        obtain ⟨hl, b0, hb0, hb2⟩ := ih es n b2 hmem
        exact ⟨hl, b0, List.mem_cons_of_mem _ hb0, hb2⟩

theorem rocketPass_kept_life (u : ℕ → ℝ) (mx my w h : ℝ) :
    ∀ (rs : List Rocket) (es : List Enemy) (n : ℕ),
      ∀ r2 ∈ (rocketPass u mx my w h rs es n).kept,
        0 < r2.life ∧ ∃ r ∈ rs, r2 = homingStep mx my r := by
  intro rs
  induction rs with
  | nil =>
    intro es n r2 hmem
    exact absurd hmem (by simp [rocketPass])
  | cons r rs ih =>
    intro es n r2 hmem
    simp only [rocketPass] at hmem
    split at hmem
    next i heq =>
      obtain ⟨hl, r0, hr0, hr2⟩ :=
        ih (es.eraseIdx i)
          ((if (homingStep mx my r).thrustParticles % 2 = 0 then n + 2 else n) + 60)
          r2 hmem
      exact ⟨hl, r0, List.mem_cons_of_mem _ hr0, hr2⟩
    next heq =>
      by_cases hkeep : 0 < (homingStep mx my r).life
          ∧ -100 < (homingStep mx my r).x
          ∧ (homingStep mx my r).x < w + 100
          ∧ -100 < (homingStep mx my r).y
          ∧ (homingStep mx my r).y < h + 100
      · rw [if_pos hkeep] at hmem
        rcases List.mem_cons.mp hmem with hr2 | hmem2
        · subst hr2
          exact ⟨hkeep.1, r, List.mem_cons_self r rs, rfl⟩
        · obtain ⟨hl, r0, hr0, hr2⟩ :=
            ih es (if (homingStep mx my r).thrustParticles % 2 = 0 then n + 2 else n)
              r2 hmem2
          exact ⟨hl, r0, List.mem_cons_of_mem _ hr0, hr2⟩
      · rw [if_neg hkeep] at hmem
        obtain ⟨hl, r0, hr0, hr2⟩ :=
          ih es (if (homingStep mx my r).thrustParticles % 2 = 0 then n + 2 else n)
            r2 hmem
        exact ⟨hl, r0, List.mem_cons_of_mem _ hr0, hr2⟩

/-! ## Projections through the tick pipeline -/

theorem midState_bullets (u : ℕ → ℝ) (s : GameState) :
    (midState u s).bullets = s.bullets := by
  simp only [midState, enemyStep, aimStep, cooldownStep, spawnStep]
  split <;> rfl

theorem midState_rockets (u : ℕ → ℝ) (s : GameState) :
    (midState u s).rockets = s.rockets := by
  simp only [midState, enemyStep, aimStep, cooldownStep, spawnStep]
  split <;> rfl

theorem midState_particles (u : ℕ → ℝ) (s : GameState) :
    (midState u s).particles = s.particles := by
  simp only [midState, enemyStep, aimStep, cooldownStep, spawnStep]
  split <;> rfl

theorem midState_score (u : ℕ → ℝ) (s : GameState) :
    (midState u s).score = s.score := by
  simp only [midState, enemyStep, aimStep, cooldownStep, spawnStep]
  split <;> rfl

theorem midState_statsCalls (u : ℕ → ℝ) (s : GameState) :
    (midState u s).statsCalls = s.statsCalls := by
  simp only [midState, enemyStep, aimStep, cooldownStep, spawnStep]
  split <;> rfl

theorem midState_canvasW (u : ℕ → ℝ) (s : GameState) :
    (midState u s).canvasW = s.canvasW := by
  simp only [midState, enemyStep, aimStep, cooldownStep, spawnStep]
  split <;> rfl

theorem midState_canvasH (u : ℕ → ℝ) (s : GameState) :
    (midState u s).canvasH = s.canvasH := by
  simp only [midState, enemyStep, aimStep, cooldownStep, spawnStep]
  split <;> rfl

theorem midState_mouseX (u : ℕ → ℝ) (s : GameState) :
    (midState u s).mouseX = s.mouseX := by
  simp only [midState, enemyStep, aimStep, cooldownStep, spawnStep]
  split <;> rfl

theorem midState_mouseY (u : ℕ → ℝ) (s : GameState) :
    (midState u s).mouseY = s.mouseY := by
  simp only [midState, enemyStep, aimStep, cooldownStep, spawnStep]
  split <;> rfl

theorem midState_enemies (u : ℕ → ℝ) (s : GameState) :
    (midState u s).enemies = keepEnemies s.canvasH (spawnStep u s).1.enemies := by
  simp only [midState, enemyStep, aimStep, cooldownStep, spawnStep]
  split <;> rfl

theorem update_bullets (u : ℕ → ℝ) (s : GameState) :
    (update u s).bullets = (bulletOut u s).kept := rfl

theorem update_rockets (u : ℕ → ℝ) (s : GameState) :
    (update u s).rockets = (rocketOut u s).kept := rfl

theorem update_score (u : ℕ → ℝ) (s : GameState) :
    (update u s).score
      = s.score + 10 * (bulletOut u s).kills + 25 * (rocketOut u s).kills := by
  show (midState u s).score + _ + _ = _
  rw [midState_score]

theorem update_statsCalls (u : ℕ → ℝ) (s : GameState) :
    (update u s).statsCalls
      = s.statsCalls + (bulletOut u s).kills + (rocketOut u s).kills := by
  show (midState u s).statsCalls + _ + _ = _
  rw [midState_statsCalls]

theorem update_enemySpawnRate (u : ℕ → ℝ) (s : GameState) :
    (update u s).enemySpawnRate = (spawnStep u s).1.enemySpawnRate := rfl

theorem update_enemySpawnTimer (u : ℕ → ℝ) (s : GameState) :
    (update u s).enemySpawnTimer = (spawnStep u s).1.enemySpawnTimer := rfl

theorem spawnStep_no_spawn (u : ℕ → ℝ) (s : GameState) (h : ¬ spawnCond s) :
    (spawnStep u s).1.enemySpawnTimer = s.enemySpawnTimer + 1
    ∧ (spawnStep u s).1.enemySpawnRate = s.enemySpawnRate
    ∧ (spawnStep u s).1.enemies = s.enemies
    ∧ (spawnStep u s).2 = 0 := by
  rw [spawnStep, if_neg h]
  exact ⟨rfl, rfl, rfl, rfl⟩

/-! ## Claim C5: projectile life strictly decreases; dead ones are pruned -/

/-- Claim C5: every bullet (resp. rocket) surviving a tick has its life
decremented by exactly 0.005 (resp. 0.003), hence strictly decreased, and
every projectile present at the start of the next tick has positive life —
so a projectile whose life dropped to 0 or below is absent. -/
theorem projectile_life_strict_decrease (u : ℕ → ℝ) (s : GameState) :
    (∀ b2 ∈ (update u s).bullets, 0 < b2.life
      ∧ ∃ b ∈ s.bullets, b2.life = b.life - 0.005 ∧ b2.life < b.life)
    ∧ (∀ r2 ∈ (update u s).rockets, 0 < r2.life
      ∧ ∃ r ∈ s.rockets, r2.life = r.life - 0.003 ∧ r2.life < r.life) := by
  constructor
  · intro b2 hmem
    rw [update_bullets] at hmem
    obtain ⟨hl, b, hb, hb2⟩ :=
      bulletPass_kept_life u (midState u s).canvasW (midState u s).canvasH
        (midState u s).bullets (midState u s).enemies (spawnStep u s).2 b2 hmem
    subst hb2
    have hmb : b ∈ s.bullets := by
      rw [← midState_bullets u s]
      exact hb
    have hlife : (stepBulletKinematics b).life = b.life - 0.005 := rfl
    exact ⟨hl, b, hmb, hlife, by rw [hlife]; linarith⟩
  · intro r2 hmem
    rw [update_rockets] at hmem
    obtain ⟨hl, r, hr, hr2⟩ :=
      rocketPass_kept_life u (midState u s).mouseX (midState u s).mouseY
        (midState u s).canvasW (midState u s).canvasH
        (midState u s).rockets (bulletOut u s).enemies (bulletOut u s).nextIdx r2 hmem
    subst hr2
    have hmr : r ∈ s.rockets := by
      rw [← midState_rockets u s]
      exact hr
    have hlife : (homingStep (midState u s).mouseX (midState u s).mouseY r).life
        = r.life - 0.003 := rfl
    exact ⟨hl, r, hmr, hlife, by rw [hlife]; linarith⟩

/-! ## Claim C8: at most one enemy per projectile per tick -/

/-- Claim C8: when a projectile's collision scan reports a hit, the reported
enemy is the first overlapping one in the engine's (descending-index)
iteration order — no enemy later in that order overlaps and none is
considered — and both the enemy and the projectile are removed: the enemy
store shrinks by exactly one enemy per kill, and each projectile loop
produces at most one kill per projectile. -/
theorem collision_first_enemy_only (px py pr : ℝ) (es : List Enemy)
    (u : ℕ → ℝ) (mx my w h : ℝ) (bs : List Bullet) (rs : List Rocket) (n : ℕ)
    (i : ℕ) (hscan : collideScan px py pr es = some i) :
    (i < es.length ∧ hitTest px py pr (enemyAt es i)
      ∧ ∀ j, i < j → j < es.length → ¬ hitTest px py pr (enemyAt es j))
    ∧ (bulletPass u w h bs es n).enemies.length + (bulletPass u w h bs es n).kills
        = es.length
    ∧ (bulletPass u w h bs es n).kills ≤ bs.length
    ∧ (bulletPass u w h bs es n).kept.length + (bulletPass u w h bs es n).kills
        ≤ bs.length
    ∧ (rocketPass u mx my w h rs es n).enemies.length
        + (rocketPass u mx my w h rs es n).kills = es.length
    ∧ (rocketPass u mx my w h rs es n).kills ≤ rs.length
    ∧ (rocketPass u mx my w h rs es n).kept.length
        + (rocketPass u mx my w h rs es n).kills ≤ rs.length := by
  obtain ⟨h1, h2, h3⟩ := bulletPass_enemy_count u w h bs es n
  obtain ⟨h4, h5, h6⟩ := rocketPass_enemy_count u mx my w h rs es n
  exact ⟨collideScan_some px py pr es i hscan, h1, h2, h3, h4, h5, h6⟩

/-! ## Claim C6: scoring and stats accounting -/

/-- Claim C6: a tick raises the score by exactly 10 per enemy destroyed by a
bullet and 25 per enemy destroyed by a rocket (the kill counts match the
enemies actually removed by the collision loops), the stats display is
updated exactly once per kill and exactly once per successful shot, and no
other operation (firing, resizing) changes the score. -/
theorem score_and_stats_accounting (u v w : ℕ → ℝ) (s : GameState) (W H : ℝ)
    (hb : s.bulletCooldown = 0) (hr : s.rocketCooldown = 0) :
    (update u s).score
        = s.score + 10 * (bulletOut u s).kills + 25 * (rocketOut u s).kills
    ∧ (update u s).statsCalls
        = s.statsCalls + (bulletOut u s).kills + (rocketOut u s).kills
    ∧ (bulletOut u s).enemies.length + (bulletOut u s).kills
        = (midState u s).enemies.length
    ∧ (rocketOut u s).enemies.length + (rocketOut u s).kills
        = (bulletOut u s).enemies.length
    ∧ (fireBullet v s).score = s.score
    ∧ (fireBullet v s).statsCalls = s.statsCalls + 1
    ∧ (fireRocket w s).score = s.score
    ∧ (fireRocket w s).statsCalls = s.statsCalls + 1
    ∧ (resizeCanvas W H s).score = s.score
    ∧ (resizeCanvas W H s).statsCalls = s.statsCalls := by
  have hfb : ¬ 0 < s.bulletCooldown := by omega
  have hfr : ¬ 0 < s.rocketCooldown := by omega
  refine ⟨update_score u s, update_statsCalls u s, ?_, ?_, ?_, ?_, ?_, ?_, rfl, rfl⟩
  · exact (bulletPass_enemy_count u (midState u s).canvasW (midState u s).canvasH
      (midState u s).bullets (midState u s).enemies (spawnStep u s).2).1
  · exact (rocketPass_enemy_count u (midState u s).mouseX (midState u s).mouseY
      (midState u s).canvasW (midState u s).canvasH
      (midState u s).rockets (bulletOut u s).enemies (bulletOut u s).nextIdx).1
  · rw [fireBullet, if_neg hfb]
  · rw [fireBullet, if_neg hfb]
  · rw [fireRocket, if_neg hfr]
  · rw [fireRocket, if_neg hfr]

/-- Witness for C6 on a concrete quiescent state with both cooldowns zero. -/
def readyState : GameState :=
  ⟨0, 0, ⟨0, 0, 60, 80, 0, 50⟩, 100, 100, [], [], [], [], 0, 0, 0, 0, 0, 60, 0, 0⟩

theorem score_and_stats_accounting_witness :
    (update (fun _ => 0) readyState).score
        = readyState.score + 10 * (bulletOut (fun _ => 0) readyState).kills
          + 25 * (rocketOut (fun _ => 0) readyState).kills
    ∧ (update (fun _ => 0) readyState).statsCalls
        = readyState.statsCalls + (bulletOut (fun _ => 0) readyState).kills
          + (rocketOut (fun _ => 0) readyState).kills
    ∧ (bulletOut (fun _ => 0) readyState).enemies.length
          + (bulletOut (fun _ => 0) readyState).kills
        = (midState (fun _ => 0) readyState).enemies.length
    ∧ (rocketOut (fun _ => 0) readyState).enemies.length
          + (rocketOut (fun _ => 0) readyState).kills
        = (bulletOut (fun _ => 0) readyState).enemies.length
    ∧ (fireBullet (fun _ => 0) readyState).score = readyState.score
    ∧ (fireBullet (fun _ => 0) readyState).statsCalls = readyState.statsCalls + 1
    ∧ (fireRocket (fun _ => 0) readyState).score = readyState.score
    ∧ (fireRocket (fun _ => 0) readyState).statsCalls = readyState.statsCalls + 1
    ∧ (resizeCanvas 200 150 readyState).score = readyState.score
    ∧ (resizeCanvas 200 150 readyState).statsCalls = readyState.statsCalls :=
  score_and_stats_accounting (fun _ => 0) (fun _ => 0) (fun _ => 0) readyState
    200 150 rfl rfl

/-! ## Claim C7: the enemy spawn interval ramp -/

/-- The game state right after the constructor and the initial
`resizeCanvas()` call. -/
def initState (w h : ℝ) : GameState :=
  resizeCanvas w h
    { mouseX := w / 2
      mouseY := h / 2
      cannon := ⟨0, 0, 60, 80, 0, 50⟩
      canvasW := 0
      canvasH := 0
      bullets := []
      rockets := []
      particles := []
      enemies := []
      bulletsFired := 0
      rocketsFired := 0
      score := 0
      bulletCooldown := 0
      rocketCooldown := 0
      enemySpawnRate := 60
      enemySpawnTimer := 0
      statsCalls := 0 }

theorem spawnStep_rate_cases (u : ℕ → ℝ) (s : GameState) :
    (spawnStep u s).1.enemySpawnRate = s.enemySpawnRate
    ∨ ((spawnStep u s).1.enemySpawnRate = s.enemySpawnRate - 0.5
        ∧ spawnCond s ∧ s.enemySpawnRate > 20) := by
  simp only [spawnStep]
  split
  next hc =>
    show (if s.enemySpawnRate > 20 then s.enemySpawnRate - 0.5
      else s.enemySpawnRate) = _ ∨ _
    split
    next h20 => exact Or.inr ⟨rfl, hc, h20⟩
    next h20 => exact Or.inl rfl
  next hc => exact Or.inl rfl

theorem spawnStep_rate_le (u : ℕ → ℝ) (s : GameState) :
    (spawnStep u s).1.enemySpawnRate ≤ s.enemySpawnRate := by
  rcases spawnStep_rate_cases u s with hcase | ⟨hcase, _, _⟩ <;> rw [hcase] <;> linarith

theorem update_spawn_inv (u : ℕ → ℝ) (s : GameState) (hInv : SpawnInv s) :
    SpawnInv (update u s) := by
  obtain ⟨k, hk, hkr⟩ := hInv
  rcases spawnStep_rate_cases u s with hcase | ⟨hcase, _, h20⟩
  · exact ⟨k, hk, by rw [update_enemySpawnRate, hcase, hkr]⟩
  · have hklt : (k : ℝ) < 80 := by
      rw [hkr] at h20
      linarith
    have hk80 : k < 80 := by exact_mod_cast hklt
    refine ⟨k + 1, by omega, ?_⟩
    rw [update_enemySpawnRate, hcase, hkr]
    push_cast
    ring

theorem update_rate_ge (u : ℕ → ℝ) (s : GameState) (hInv : SpawnInv s) :
    20 ≤ (update u s).enemySpawnRate := by
  obtain ⟨k, hk, hkr⟩ := update_spawn_inv u s hInv
  rw [hkr]
  have : (k : ℝ) ≤ 80 := by exact_mod_cast hk
  linarith

theorem iter_timer_rate (us : ℕ → ℕ → ℝ) (s : GameState)
    (hrate : 20 ≤ s.enemySpawnRate) (ht : s.enemySpawnTimer = 0) :
    ∀ j, j ≤ 20 → (iterUpdate us s j).enemySpawnTimer = j
      ∧ (iterUpdate us s j).enemySpawnRate = s.enemySpawnRate := by
  intro j
  induction j with
  | zero => intro _; exact ⟨ht, rfl⟩
  | succ m ih =>
    intro hm
    obtain ⟨h1, h2⟩ := ih (by omega)
    have hnc : ¬ spawnCond (iterUpdate us s m) := by
      simp only [spawnCond]
      rw [h1, h2]
      have hcast : ((m + 1 : ℕ) : ℝ) ≤ 20 := by exact_mod_cast hm
      push_cast at hcast ⊢
      linarith
    have hs := spawnStep_no_spawn (us m) (iterUpdate us s m) hnc
    constructor
    · show (update (us m) (iterUpdate us s m)).enemySpawnTimer = m + 1
      rw [update_enemySpawnTimer, hs.1, h1]
    · show (update (us m) (iterUpdate us s m)).enemySpawnRate = s.enemySpawnRate
      rw [update_enemySpawnRate, hs.2.1, h2]

/-- Claim C7: across a tick the spawn interval never increases, shrinks by
exactly 0.5 only on a spawn, and stays within the reachable half-step grid
above the floor 20 (an invariant that holds initially); with the interval at
its floor, at least 20 ticks pass after a spawn before the next spawn
condition can hold. -/
theorem spawn_rate_monotone_floored (us : ℕ → ℕ → ℝ) (u : ℕ → ℝ)
    (s : GameState) (W H : ℝ) (j : ℕ)
    (hInv : SpawnInv s) (ht : s.enemySpawnTimer = 0) (hj : j < 20) :
    (update u s).enemySpawnRate ≤ s.enemySpawnRate
    ∧ ((update u s).enemySpawnRate = s.enemySpawnRate
        ∨ ((update u s).enemySpawnRate = s.enemySpawnRate - 0.5
            ∧ spawnCond s ∧ s.enemySpawnRate > 20))
    ∧ SpawnInv (update u s)
    ∧ 20 ≤ (update u s).enemySpawnRate
    ∧ SpawnInv (initState W H)
    ∧ ¬ spawnCond (iterUpdate us s j) := by
  have hrate : 20 ≤ s.enemySpawnRate := by
    obtain ⟨k, hk, hkr⟩ := hInv
    rw [hkr]
    have : (k : ℝ) ≤ 80 := by exact_mod_cast hk
    linarith
  refine ⟨?_, ?_, update_spawn_inv u s hInv, update_rate_ge u s hInv, ?_, ?_⟩
  · rw [update_enemySpawnRate]
    exact spawnStep_rate_le u s
  · rw [update_enemySpawnRate]
    exact spawnStep_rate_cases u s
  · exact ⟨0, by omega, by norm_num [initState, resizeCanvas]⟩
  · obtain ⟨h1, h2⟩ := iter_timer_rate us s hrate ht j (by omega)
    simp only [spawnCond]
    rw [h1, h2]
    intro hgt
    have hcast : ((j + 1 : ℕ) : ℝ) ≤ 20 := by exact_mod_cast (by omega : j + 1 ≤ 20)
    linarith

/-- Witness for C7 at the initial state and `j = 19`. -/
theorem spawn_rate_monotone_floored_witness :
    (update (fun _ => 0) (initState 100 100)).enemySpawnRate
        ≤ (initState 100 100).enemySpawnRate
    ∧ ((update (fun _ => 0) (initState 100 100)).enemySpawnRate
          = (initState 100 100).enemySpawnRate
        ∨ ((update (fun _ => 0) (initState 100 100)).enemySpawnRate
            = (initState 100 100).enemySpawnRate - 0.5
          ∧ spawnCond (initState 100 100)
          ∧ (initState 100 100).enemySpawnRate > 20))
    ∧ SpawnInv (update (fun _ => 0) (initState 100 100))
    ∧ 20 ≤ (update (fun _ => 0) (initState 100 100)).enemySpawnRate
    ∧ SpawnInv (initState 200 150)
    ∧ ¬ spawnCond (iterUpdate (fun _ _ => 0) (initState 100 100) 19) :=
  spawn_rate_monotone_floored (fun _ _ => 0) (fun _ => 0) (initState 100 100)
    200 150 19 ⟨0, by omega, by norm_num [initState, resizeCanvas]⟩ rfl
    (by omega)

/-! ## Claim C10: every particle dies within 50 ticks -/

theorem stepParticle_iter (p : Particle) :
    ∀ k : ℕ, (stepParticle^[k] p).life = p.life - k * p.decay
      ∧ (stepParticle^[k] p).decay = p.decay := by
  intro k
  induction k with
  | zero => simp
  | succ m ih =>
    rw [Function.iterate_succ_apply']
    have hlife : (stepParticle (stepParticle^[m] p)).life
        = (stepParticle^[m] p).life - (stepParticle^[m] p).decay := rfl
    have hdecay : (stepParticle (stepParticle^[m] p)).decay
        = (stepParticle^[m] p).decay := rfl
    constructor
    · rw [hlife, ih.1, ih.2]
      push_cast
      ring
    · rw [hdecay, ih.2]

theorem particlePass_pos : ∀ ps : List Particle, ∀ q ∈ particlePass ps, 0 < q.life := by
  intro ps
  induction ps with
  | nil =>
    intro q hq
    exact absurd hq (by simp [particlePass])
  | cons p ps ih =>
    intro q hq
    simp only [particlePass] at hq
    split at hq
    next hl =>
      rcases List.mem_cons.mp hq with rfl | hq2
      · exact hl
      · exact ih q hq2
    next hl => exact ih q hq

/-- Claim C10: every particle is created with life 1 and a decay of at least
0.02 (muzzle flash in [0.02, 0.04), explosion in [0.03, 0.06), thrust
exactly 0.05), so after 50 advancement steps its life is no longer positive,
and the per-tick particle filter keeps only particles with positive life. -/
theorem particle_bounded_lifetime (u : ℕ → ℝ) (n : ℕ) (x y a : ℝ) (ir : Bool)
    (r : Rocket) (p : Particle) (ps : List Particle)
    (hu : ∀ m, 0 ≤ u m ∧ u m < 1) (hp : p.life ≤ 1 ∧ 0.02 ≤ p.decay) :
    (∀ q ∈ createMuzzleFlash u n x y a ir,
      q.life = 1 ∧ 0.02 ≤ q.decay ∧ q.decay < 0.04)
    ∧ (∀ q ∈ createExplosion u n x y,
      q.life = 1 ∧ 0.03 ≤ q.decay ∧ q.decay < 0.06)
    ∧ (mkThrustParticle u n r).life = 1 ∧ (mkThrustParticle u n r).decay = 0.05
    ∧ (stepParticle^[50] p).life ≤ 0
    ∧ (∀ q ∈ particlePass ps, 0 < q.life) := by
  refine ⟨?_, ?_, rfl, rfl, ?_, particlePass_pos ps⟩
  · intro q hq
    simp only [createMuzzleFlash, List.mem_map, List.mem_range] at hq
    obtain ⟨i, hi, rfl⟩ := hq
    refine ⟨rfl, ?_, ?_⟩
    · have h0 := (hu (n + 4 * i + 3)).1
      show 0.02 ≤ 0.02 + u (n + 4 * i + 3) * 0.02
      linarith
    · have h0 := (hu (n + 4 * i + 3)).1
      have h1 := (hu (n + 4 * i + 3)).2
      show 0.02 + u (n + 4 * i + 3) * 0.02 < 0.04
      nlinarith
  · intro q hq
    simp only [createExplosion, List.mem_map, List.mem_range] at hq
    obtain ⟨i, hi, rfl⟩ := hq
    refine ⟨rfl, ?_, ?_⟩
    · have h0 := (hu (n + 4 * i + 3)).1
      show 0.03 ≤ 0.03 + u (n + 4 * i + 3) * 0.03
      linarith
    · have h0 := (hu (n + 4 * i + 3)).1
      have h1 := (hu (n + 4 * i + 3)).2
      show 0.03 + u (n + 4 * i + 3) * 0.03 < 0.06
      nlinarith
  · rw [(stepParticle_iter p 50).1]
    push_cast
    linarith [hp.1, hp.2]

/-- A particle at the slowest creatable decay rate. -/
def slowParticle : Particle := ⟨0, 0, 0, 0, 1, 1, 0.02, ⟨0, 0, 0⟩⟩

/-- A rocket at the origin, used as a concrete thrust emitter. -/
def originRocket : Rocket := ⟨0, 0, 0, 0, 0, 6, 1, [], 0⟩

/-- Witness for C10 at the constant-zero random tape and `slowParticle`. -/
theorem particle_bounded_lifetime_witness :
    (∀ q ∈ createMuzzleFlash (fun _ => 0) 0 0 0 0 false,
      q.life = 1 ∧ 0.02 ≤ q.decay ∧ q.decay < 0.04)
    ∧ (∀ q ∈ createExplosion (fun _ => 0) 0 0 0,
      q.life = 1 ∧ 0.03 ≤ q.decay ∧ q.decay < 0.06)
    ∧ (mkThrustParticle (fun _ => 0) 0 originRocket).life = 1
    ∧ (mkThrustParticle (fun _ => 0) 0 originRocket).decay = 0.05
    ∧ (stepParticle^[50] slowParticle).life ≤ 0
    ∧ (∀ q ∈ particlePass [], 0 < q.life) :=
  particle_bounded_lifetime (fun _ => 0) 0 0 0 0 false originRocket slowParticle []
    (fun _ => ⟨le_refl 0, by norm_num⟩) (by norm_num [slowParticle])

/-! ## Concrete evaluations used by the remaining witnesses -/

/-- A large enemy sitting on the projectile used in the C8 witness. -/
def hitEnemy : Enemy := ⟨0, 0, 0, 30, 0, 0, 0⟩

/-- A small enemy far from the projectile used in the C8 witness. -/
def farEnemy : Enemy := ⟨100, 0, 0, 5, 0, 0, 0⟩

theorem hitTest_far : ¬ hitTest 0 0 4 farEnemy := by
  show ¬ Real.sqrt (((0:ℝ) - 100) * (0 - 100) + (0 - 0) * (0 - 0)) < 5 + 4
  rw [show ((0:ℝ) - 100) * (0 - 100) + (0 - 0) * (0 - 0) = 100 ^ 2 by norm_num,
    Real.sqrt_sq (by norm_num : (0:ℝ) ≤ 100)]
  norm_num

theorem hitTest_near : hitTest 0 0 4 hitEnemy := by
  show Real.sqrt (((0:ℝ) - 0) * (0 - 0) + (0 - 0) * (0 - 0)) < 30 + 4
  rw [show ((0:ℝ) - 0) * (0 - 0) + (0 - 0) * (0 - 0) = 0 by norm_num,
    Real.sqrt_zero]
  norm_num

theorem cex_scan : collideScan 0 0 4 [hitEnemy, farEnemy] = some 0 := by
  have step2 : collideScan 0 0 4 [hitEnemy, farEnemy]
      = if hitTest 0 0 4 (enemyAt [hitEnemy, farEnemy] 1) then some 1
        else scanFrom 0 0 4 [hitEnemy, farEnemy] 1 := rfl
  have step1 : scanFrom 0 0 4 [hitEnemy, farEnemy] 1
      = if hitTest 0 0 4 (enemyAt [hitEnemy, farEnemy] 0) then some 0
        else none := rfl
  have e1 : enemyAt [hitEnemy, farEnemy] 1 = farEnemy := rfl
  have e0 : enemyAt [hitEnemy, farEnemy] 0 = hitEnemy := rfl
  rw [step2, e1, if_neg hitTest_far, step1, e0, if_pos hitTest_near]

/-- Witness for C8: the descending scan over `[hitEnemy, farEnemy]` picks
index 0 (the only overlap, after index 1 fails), and the loop accounting
holds on empty projectile stores. -/
theorem collision_first_enemy_only_witness :
    (0 < ([hitEnemy, farEnemy] : List Enemy).length
      ∧ hitTest 0 0 4 (enemyAt [hitEnemy, farEnemy] 0)
      ∧ ∀ j, 0 < j → j < ([hitEnemy, farEnemy] : List Enemy).length →
          ¬ hitTest 0 0 4 (enemyAt [hitEnemy, farEnemy] j))
    ∧ (bulletPass (fun _ => 0) 100 100 [] [hitEnemy, farEnemy] 0).enemies.length
        + (bulletPass (fun _ => 0) 100 100 [] [hitEnemy, farEnemy] 0).kills
        = ([hitEnemy, farEnemy] : List Enemy).length
    ∧ (bulletPass (fun _ => 0) 100 100 [] [hitEnemy, farEnemy] 0).kills
        ≤ ([] : List Bullet).length
    ∧ (bulletPass (fun _ => 0) 100 100 [] [hitEnemy, farEnemy] 0).kept.length
        + (bulletPass (fun _ => 0) 100 100 [] [hitEnemy, farEnemy] 0).kills
        ≤ ([] : List Bullet).length
    ∧ (rocketPass (fun _ => 0) 0 0 100 100 [] [hitEnemy, farEnemy] 0).enemies.length
        + (rocketPass (fun _ => 0) 0 0 100 100 [] [hitEnemy, farEnemy] 0).kills
        = ([hitEnemy, farEnemy] : List Enemy).length
    ∧ (rocketPass (fun _ => 0) 0 0 100 100 [] [hitEnemy, farEnemy] 0).kills
        ≤ ([] : List Rocket).length
    ∧ (rocketPass (fun _ => 0) 0 0 100 100 [] [hitEnemy, farEnemy] 0).kept.length
        + (rocketPass (fun _ => 0) 0 0 100 100 [] [hitEnemy, farEnemy] 0).kills
        ≤ ([] : List Rocket).length :=
  collision_first_enemy_only 0 0 4 [hitEnemy, farEnemy] (fun _ => 0) 0 0 100 100
    [] [] 0 0 cex_scan

/-- The constant-zero random tape. -/
def u0 : ℕ → ℝ := fun _ => 0

/-- A motionless bullet well inside a 100x100 canvas. -/
def b0 : Bullet := ⟨10, 10, 0, 0, 4, 1, []⟩

/-- A motionless rocket at the origin with the pointer on top of it. -/
def r0 : Rocket := ⟨0, 0, 0, 0, 0, 6, 1, [], 0⟩

/-- A state holding one bullet and one rocket and nothing else. -/
def runState : GameState :=
  ⟨0, 0, ⟨0, 0, 60, 80, 0, 50⟩, 100, 100, [b0], [r0], [], [], 0, 0, 0, 0, 0, 60, 0, 0⟩

theorem runState_no_spawn : ¬ spawnCond runState := by
  simp only [spawnCond, runState]
  norm_num

theorem bulletPass_run :
    bulletPass u0 100 100 [b0] [] 0 = ⟨[stepBulletKinematics b0], [], [], 0, 0⟩ := by
  have hstep : bulletPass u0 100 100 [b0] [] 0
      = ⟨if 0 < (stepBulletKinematics b0).life
            ∧ -50 < (stepBulletKinematics b0).x
            ∧ (stepBulletKinematics b0).x < 100 + 50
            ∧ -50 < (stepBulletKinematics b0).y
            ∧ (stepBulletKinematics b0).y < 100 + 50
          then [stepBulletKinematics b0] else [], [], [], 0, 0⟩ := rfl
  have hcond : 0 < (stepBulletKinematics b0).life
      ∧ -50 < (stepBulletKinematics b0).x
      ∧ (stepBulletKinematics b0).x < 100 + 50
      ∧ -50 < (stepBulletKinematics b0).y
      ∧ (stepBulletKinematics b0).y < 100 + 50 := by
    refine ⟨?_, ?_, ?_, ?_, ?_⟩
    · show (0:ℝ) < 1 - 0.005
      norm_num
    · show (-50:ℝ) < 10 + 0
      norm_num
    · show (10:ℝ) + 0 < 100 + 50
      norm_num
    · show (-50:ℝ) < 10 + 0
      norm_num
    · show (10:ℝ) + 0 < 100 + 50
      norm_num
  rw [hstep, if_pos hcond]

theorem homing_r0_x : (homingStep 0 0 r0).x = 0 := by
  have hx : (homingStep 0 0 r0).x
      = r0.x + Real.cos ((homingStep 0 0 r0).angle)
          * Real.sqrt (r0.vx * r0.vx + r0.vy * r0.vy) := rfl
  rw [hx, show r0.vx * r0.vx + r0.vy * r0.vy = 0 by norm_num [r0],
    Real.sqrt_zero, mul_zero]
  norm_num [r0]

theorem homing_r0_y : (homingStep 0 0 r0).y = 0 := by
  have hy : (homingStep 0 0 r0).y
      = r0.y + Real.sin ((homingStep 0 0 r0).angle)
          * Real.sqrt (r0.vx * r0.vx + r0.vy * r0.vy) := rfl
  rw [hy, show r0.vx * r0.vx + r0.vy * r0.vy = 0 by norm_num [r0],
    Real.sqrt_zero, mul_zero]
  norm_num [r0]

theorem rocketPass_run :
    rocketPass u0 0 0 100 100 [r0] [] 0 = ⟨[homingStep 0 0 r0], [], [], 0, 0⟩ := by
  have hstep : rocketPass u0 0 0 100 100 [r0] [] 0
      = ⟨if 0 < (homingStep 0 0 r0).life
            ∧ -100 < (homingStep 0 0 r0).x
            ∧ (homingStep 0 0 r0).x < 100 + 100
            ∧ -100 < (homingStep 0 0 r0).y
            ∧ (homingStep 0 0 r0).y < 100 + 100
          then [homingStep 0 0 r0] else [], [], [], 0, 0⟩ := rfl
  have hcond : 0 < (homingStep 0 0 r0).life
      ∧ -100 < (homingStep 0 0 r0).x
      ∧ (homingStep 0 0 r0).x < 100 + 100
      ∧ -100 < (homingStep 0 0 r0).y
      ∧ (homingStep 0 0 r0).y < 100 + 100 := by
    refine ⟨?_, ?_, ?_, ?_, ?_⟩
    · show (0:ℝ) < 1 - 0.003
      norm_num
    · rw [homing_r0_x]
      norm_num
    · rw [homing_r0_x]
      norm_num
    · rw [homing_r0_y]
      norm_num
    · rw [homing_r0_y]
      norm_num
  rw [hstep, if_pos hcond]

theorem bulletOut_run :
    bulletOut u0 runState = ⟨[stepBulletKinematics b0], [], [], 0, 0⟩ := by
  simp only [bulletOut]
  rw [midState_canvasW, midState_canvasH, midState_bullets, midState_enemies,
    (spawnStep_no_spawn u0 runState runState_no_spawn).2.2.1,
    (spawnStep_no_spawn u0 runState runState_no_spawn).2.2.2]
  show bulletPass u0 100 100 [b0] (keepEnemies 100 []) 0 = _
  rw [show keepEnemies (100:ℝ) [] = [] from rfl]
  exact bulletPass_run

theorem rocketOut_run :
    rocketOut u0 runState = ⟨[homingStep 0 0 r0], [], [], 0, 0⟩ := by
  simp only [rocketOut]
  rw [midState_mouseX, midState_mouseY, midState_canvasW, midState_canvasH,
    midState_rockets, bulletOut_run]
  show rocketPass u0 0 0 100 100 [r0] [] 0 = _
  exact rocketPass_run

/-- Witness for C5: in `runState` the surviving bullet and rocket carry the
exact decrements. -/
theorem projectile_life_strict_decrease_witness :
    (0 < (stepBulletKinematics b0).life
      ∧ ∃ b ∈ runState.bullets,
        (stepBulletKinematics b0).life = b.life - 0.005
        ∧ (stepBulletKinematics b0).life < b.life)
    ∧ (0 < (homingStep 0 0 r0).life
      ∧ ∃ r ∈ runState.rockets,
        (homingStep 0 0 r0).life = r.life - 0.003
        ∧ (homingStep 0 0 r0).life < r.life) :=
  ⟨(projectile_life_strict_decrease u0 runState).1 (stepBulletKinematics b0)
      (by rw [update_bullets, bulletOut_run]; exact List.mem_singleton.mpr rfl),
    (projectile_life_strict_decrease u0 runState).2 (homingStep 0 0 r0)
      (by rw [update_rockets, rocketOut_run]; exact List.mem_singleton.mpr rfl)⟩

/-! ## Claim C9: resize moves only the canvas size and cannon anchor -/

/-- Claim C9: the viewport-resize operation changes only the canvas
dimensions and the cannon anchor (new bottom centre); every entity store
and every other field is untouched. -/
theorem resize_repositions_cannon_only (w h : ℝ) (s : GameState) :
    (resizeCanvas w h s).bullets = s.bullets
    ∧ (resizeCanvas w h s).rockets = s.rockets
    ∧ (resizeCanvas w h s).particles = s.particles
    ∧ (resizeCanvas w h s).enemies = s.enemies
    ∧ (resizeCanvas w h s).canvasW = w
    ∧ (resizeCanvas w h s).canvasH = h
    ∧ (resizeCanvas w h s).cannon.x = w / 2
    ∧ (resizeCanvas w h s).cannon.y = h - 40
    ∧ (resizeCanvas w h s).cannon.angle = s.cannon.angle
    ∧ (resizeCanvas w h s).cannon.barrelLength = s.cannon.barrelLength
    ∧ (resizeCanvas w h s).mouseX = s.mouseX
    ∧ (resizeCanvas w h s).mouseY = s.mouseY
    ∧ (resizeCanvas w h s).score = s.score
    ∧ (resizeCanvas w h s).bulletsFired = s.bulletsFired
    ∧ (resizeCanvas w h s).rocketsFired = s.rocketsFired
    ∧ (resizeCanvas w h s).bulletCooldown = s.bulletCooldown
    ∧ (resizeCanvas w h s).rocketCooldown = s.rocketCooldown
    ∧ (resizeCanvas w h s).enemySpawnRate = s.enemySpawnRate
    ∧ (resizeCanvas w h s).enemySpawnTimer = s.enemySpawnTimer
    ∧ (resizeCanvas w h s).statsCalls = s.statsCalls := by
  exact ⟨rfl, rfl, rfl, rfl, rfl, rfl, rfl, rfl, rfl, rfl, rfl, rfl, rfl, rfl,
    rfl, rfl, rfl, rfl, rfl, rfl⟩

end

